import Mathlib

/-!
# Verification of the GSL density-viewer heatmap core

Shallow embedding of the spatial-interpolation and rendering pipeline of
`src/components/map/heatmap-renderer.tsx` and the playback timer of
`src/components/map/great-salt-lake-heatmap.tsx` (plus the unnamed earlier
variants of that component).

JavaScript numbers are modelled by `JVal`: either NaN, one of the two
infinities, or a finite value represented exactly by a rational.  Rounding
is not modelled; all claims under verification are about control flow that
is exact in this model (epsilon short-circuits, finiteness guards, list
partitioning), not about floating-point rounding.
-/

/-- A JavaScript number: NaN, +Infinity, -Infinity, or a finite value
(modelled exactly as a rational). -/
inductive JVal where
  | nan : JVal
  | posInf : JVal
  | negInf : JVal
  | fin : ℚ → JVal
deriving DecidableEq, Repr

namespace JVal

/-- JS unary minus. -/
def jneg : JVal → JVal
  | nan => nan
  | posInf => negInf
  | negInf => posInf
  | fin q => fin (-q)

/-- JS addition (`+`): NaN propagates; opposite infinities give NaN. -/
def jadd : JVal → JVal → JVal
  | nan, _ => nan
  | _, nan => nan
  | posInf, negInf => nan
  | negInf, posInf => nan
  | posInf, _ => posInf
  | _, posInf => posInf
  | negInf, _ => negInf
  | _, negInf => negInf
  | fin a, fin b => fin (a + b)

/-- JS subtraction (`-`), which behaves as addition of the negation. -/
def jsub (a b : JVal) : JVal := jadd a (jneg b)

/-- JS multiplication (`*`): NaN propagates; infinity times zero is NaN. -/
def jmul : JVal → JVal → JVal
  | nan, _ => nan
  | _, nan => nan
  | posInf, posInf => posInf
  | posInf, negInf => negInf
  | negInf, posInf => negInf
  | negInf, negInf => posInf
  | posInf, fin q => if q = 0 then nan else if 0 < q then posInf else negInf
  | fin q, posInf => if q = 0 then nan else if 0 < q then posInf else negInf
  | negInf, fin q => if q = 0 then nan else if 0 < q then negInf else posInf
  | fin q, negInf => if q = 0 then nan else if 0 < q then negInf else posInf
  | fin a, fin b => fin (a * b)

/-- JS division (`/`): finite over zero gives a signed infinity (NaN for
zero over zero), finite over infinity gives zero, infinity over infinity
gives NaN.  Signed zeros are not modelled (the single zero acts as `+0`). -/
def jdiv : JVal → JVal → JVal
  | nan, _ => nan
  | _, nan => nan
  | posInf, posInf => nan
  | posInf, negInf => nan
  | negInf, posInf => nan
  | negInf, negInf => nan
  | posInf, fin q => if 0 ≤ q then posInf else negInf
  | negInf, fin q => if 0 ≤ q then negInf else posInf
  | fin _, posInf => fin 0
  | fin _, negInf => fin 0
  | fin a, fin b =>
      if b = 0 then (if a = 0 then nan else if 0 < a then posInf else negInf)
      else fin (a / b)

/-- `Math.pow` restricted to natural exponents (the renderer only uses the
exponent `pwr / 2` with `pwr = 2`).  As in JS, anything to the power zero
is `1`, NaN included. -/
def jpow (x : JVal) : ℕ → JVal
  | 0 => fin 1
  | n + 1 => jmul x (jpow x n)

/-- JS strict less-than (`<`): any comparison involving NaN is false. -/
def jlt : JVal → JVal → Bool
  | nan, _ => false
  | _, nan => false
  | negInf, negInf => false
  | negInf, _ => true
  | _, negInf => false
  | posInf, _ => false
  | fin _, posInf => true
  | fin a, fin b => decide (a < b)

/-- JS less-or-equal (`<=`): any comparison involving NaN is false. -/
def jle : JVal → JVal → Bool
  | nan, _ => false
  | _, nan => false
  | negInf, _ => true
  | _, negInf => false
  | _, posInf => true
  | posInf, _ => false
  | fin a, fin b => decide (a ≤ b)

/-- JS strict equality (`===`) on numbers: NaN is not equal to anything,
itself included. -/
def jeq : JVal → JVal → Bool
  | nan, _ => false
  | _, nan => false
  | posInf, posInf => true
  | negInf, negInf => true
  | fin a, fin b => decide (a = b)
  | _, _ => false

/-- JS `isFinite`. -/
def jIsFinite : JVal → Bool
  | fin _ => true
  | _ => false

/-- JS `isNaN`. -/
def jIsNaN : JVal → Bool
  | nan => true
  | _ => false

/-- JS `Math.min`: NaN propagates. -/
def jmin : JVal → JVal → JVal
  | nan, _ => nan
  | _, nan => nan
  | negInf, _ => negInf
  | _, negInf => negInf
  | posInf, b => b
  | a, posInf => a
  | fin a, fin b => fin (min a b)

/-- JS `Math.abs`. -/
def jabs : JVal → JVal
  | nan => nan
  | posInf => posInf
  | negInf => posInf
  | fin a => fin |a|

end JVal

open JVal

/-- A screen-space data point fed to the interpolator
(`interface DataPoint { x, y, value }` in heatmap-renderer.tsx). -/
structure DataPoint where
  x : JVal
  y : JVal
  value : JVal
deriving DecidableEq, Repr

/-- `const IDW_POWER = 2` in heatmap-renderer.tsx. -/
def IDW_POWER : ℕ := 2

/-- The literal `1e-8` used by the exact-match short-circuit of `idw`. -/
def idwEpsilon : ℚ := 1 / 100000000

/-- The squared screen distance `(x - pt.x) ** 2 + (y - pt.y) ** 2`
computed at the top of the `idw` loop body. -/
def dSqOf (x y : JVal) (pt : DataPoint) : JVal :=
  jadd (jpow (jsub x pt.x) 2) (jpow (jsub y pt.y) 2)

/-- The weight `1 / Math.pow(dSq, pwr / 2)` of one point in `idw`
(`pwr / 2` is natural division, matching JS for the even powers used). -/
def weightOf (dSq : JVal) (pwr : ℕ) : JVal :=
  jdiv (.fin 1) (jpow dSq (pwr / 2))

/-- The `for (const pt of points)` loop of `idw` in heatmap-renderer.tsx,
threading the `num` and `den` accumulators and returning them together with
the `match` variable (set and `break`ing on the first point whose squared
distance is below `1e-8`). -/
def idwLoop (x y : JVal) (pwr : ℕ) :
    List DataPoint → JVal → JVal → JVal × JVal × Option JVal
  | [], num, den => (num, den, none)
  | pt :: rest, num, den =>
    let dSq := dSqOf x y pt
    if jlt dSq (.fin idwEpsilon) then (num, den, some pt.value)
    else if jeq dSq (.fin 0) then idwLoop x y pwr rest num den
    else
      let w := weightOf dSq pwr
      if jIsFinite w then
        idwLoop x y pwr rest (jadd num (jmul pt.value w)) (jadd den w)
      else idwLoop x y pwr rest num den

/-- The `idw` closure of heatmap-renderer.tsx (lines 161-174): inverse
distance weighting with an exact-match short-circuit, returning `none`
(JS `null`) when the weight sum is zero (JS `===`) or not finite. -/
def idw (x y : JVal) (points : List DataPoint) (pwr : ℕ) : Option JVal :=
  let res := idwLoop x y pwr points (.fin 0) (.fin 0)
  match res.2.2 with
  | some v => some v
  | none =>
    if jeq res.2.1 (.fin 0) || !(jIsFinite res.2.1) then none
    else some (jdiv res.1 res.2.1)

/-! ## String utilities (slug derivation and clip-id handling)

These embed the regex chain of `renderOverlay` / `processArm`:
`.toLowerCase().replace(/\s+/g,'-').replace(/[^a-z0-9-]/g,'')`
then the trim of leading and trailing hyphen runs and the collapse of
hyphen runs to a single hyphen,
and `clipId.replace('maplibreo-lake-clip-','')`, as structural recursion on
character lists (JS `\s` is modelled by `Char.isWhitespace`). -/

/-- `.replace(/\s+/g, '-')`: each maximal whitespace run becomes a single
hyphen.  The flag records whether the previous character was whitespace. -/
def wsToHyphen : Bool → List Char → List Char
  | _, [] => []
  | prevWs, c :: rest =>
    if c.isWhitespace then
      (if prevWs then [] else ['-']) ++ wsToHyphen true rest
    else c :: wsToHyphen false rest

/-- `.replace(/[^a-z0-9-]/g, '')`: keep only lowercase ASCII letters,
digits and hyphens. -/
def keepAllowed (cs : List Char) : List Char :=
  cs.filter (fun c => ('a' ≤ c && c ≤ 'z') || ('0' ≤ c && c ≤ '9') || c == '-')

/-- `.replace(/^-+|-+$/g, '')`: strip leading and trailing hyphen runs. -/
def trimHyphens (cs : List Char) : List Char :=
  ((cs.dropWhile (· == '-')).reverse.dropWhile (· == '-')).reverse

/-- The final replace of the slug chain: collapse every hyphen run to a
single hyphen. -/
def collapseHyphens : Bool → List Char → List Char
  | _, [] => []
  | prevHy, c :: rest =>
    if c == '-' then
      (if prevHy then [] else ['-']) ++ collapseHyphens true rest
    else c :: collapseHyphens false rest

/-- The slug derivation applied to a feature's `layer` property in
`renderOverlay` and `processArm`. -/
def slugify (s : String) : String :=
  String.mk (collapseHyphens false (trimHyphens (keepAllowed
    (wsToHyphen false (s.data.map Char.toLower)))))

/-- Does `needle` occur at the start of `hay`? -/
def charsStartWith : List Char → List Char → Bool
  | [], _ => true
  | _ :: _, [] => false
  | c :: cs, d :: ds => c == d && charsStartWith cs ds

/-- Does `needle` occur anywhere in `hay` (JS `String.includes`)? -/
def charsHasSub (needle : List Char) : List Char → Bool
  | [] => needle.isEmpty
  | hay@(_ :: t) => charsStartWith needle hay || charsHasSub needle t

/-- JS `slug.includes(pat)` for the region matching in `renderOverlay`. -/
def strIncludes (s pat : String) : Bool := charsHasSub pat.data s.data

/-- JS `s.replace(pat, '')` with a plain-string pattern: removes the first
occurrence of `pat`, if any. -/
def removeFirstOcc (pat : List Char) : List Char → List Char
  | [] => []
  | s@(c :: rest) =>
    if charsStartWith pat s then s.drop pat.length
    else c :: removeFirstOcc pat rest

/-- `clipIdToSlug` in heatmap-renderer.tsx: strip the
`maplibreo-lake-clip-` prefix from a clip id (empty string for `null`). -/
def clipIdToSlug (clipId : Option String) : String :=
  match clipId with
  | none => ""
  | some cid => String.mk (removeFirstOcc "maplibreo-lake-clip-".data cid.data)

/-! ## Stations and the north/south point partition (`renderOverlay`) -/

/-- A processed station as consumed by `renderOverlay`: `longitude` and
`latitude` are `number | null` in the source (`none` models `null`;
`typeof x === 'number'` is `Option.isSome` in this model). -/
structure Station where
  id : String
  name : String
  longitude : Option JVal
  latitude : Option JVal
deriving DecidableEq, Repr

/-- `const NORTH_ARM_STATION_IDS: ReadonlySet<string> = new Set(['RD2', 'SJ-1', 'LVG4'])`. -/
def NORTH_ARM_STATION_IDS : List String := ["RD2", "SJ-1", "LVG4"]

/-- The `stations.forEach` loop of `renderOverlay` (lines 143-157) that
partitions stations into the north-arm and south-arm screen point lists.
The map projection `map.project` is an external collaborator, passed in as
a total function (the source's try/catch and truthiness check on the
projected point never skip a station for a total projection). -/
def buildArmPoints (project : JVal → JVal → JVal × JVal)
    (data : String → Option JVal) :
    List Station → List DataPoint × List DataPoint
  | [] => ([], [])
  | s :: rest =>
    let acc := buildArmPoints project data rest
    match data s.id, s.longitude, s.latitude with
    | some v, some lon, some lat =>
      if jIsNaN v || jIsNaN lon || jIsNaN lat then acc
      else
        let projected := project lon lat
        let point : DataPoint := ⟨projected.1, projected.2, v⟩
        if NORTH_ARM_STATION_IDS.contains s.id then (point :: acc.1, acc.2)
        else (acc.1, point :: acc.2)
    | _, _, _ => acc

/-- Validity filter implicit in the `forEach` guard: a defined, non-NaN
value and numeric, non-NaN coordinates. -/
def isValidStation (data : String → Option JVal) (s : Station) : Bool :=
  match data s.id, s.longitude, s.latitude with
  | some v, some lon, some lat => !(jIsNaN v || jIsNaN lon || jIsNaN lat)
  | _, _, _ => false

/-- The screen `DataPoint` a (valid) station contributes. -/
def mkDataPoint (project : JVal → JVal → JVal × JVal)
    (data : String → Option JVal) (s : Station) : DataPoint :=
  let v := (data s.id).getD (.fin 0)
  let lon := s.longitude.getD (.fin 0)
  let lat := s.latitude.getD (.fin 0)
  let projected := project lon lat
  ⟨projected.1, projected.2, v⟩

/-! ## Features, clip ids and the rasterizer (`processArm`) -/

/-- A GeoJSON polygon feature as seen by the renderer: the optional
`properties.layer` string, and the geographic bounds that
`d3.geoBounds` (an external collaborator) reports for its geometry, as
`((minLng, minLat), (maxLng, maxLat))`. -/
structure Feature where
  layer : Option String
  bounds : (JVal × JVal) × (JVal × JVal)
deriving DecidableEq, Repr

/-- `feature.properties?.layer || fallback` (JS `||`: the empty string is
falsy). -/
def rawLayerOf (f : Feature) (fallback : String) : String :=
  match f.layer with
  | some l => if l = "" then fallback else l
  | none => fallback

/-- The `lakeData.features.forEach` loop of `renderOverlay` (lines
111-133) that derives each feature's clip id and records the last feature
matching the north (resp. south) arm test.  `i` is the running index. -/
def clipIdsAux : ℕ → Option String × Option String → List Feature →
    Option String × Option String
  | _, acc, [] => acc
  | i, acc, f :: rest =>
    let rawLayer := rawLayerOf f ("feature-" ++ toString i)
    let slug := slugify rawLayer
    let clipId := "maplibreo-lake-clip-" ++ (if slug = "" then toString i else slug)
    let acc' :=
      if rawLayer == "GSL4194PolyNA" || strIncludes slug "polyna" then
        (some clipId, acc.2)
      else if rawLayer == "GSL4194PolySA" || strIncludes slug "polysa" then
        (acc.1, some clipId)
      else acc
    clipIdsAux (i + 1) acc' rest

/-- `northArmClipId` and `southArmClipId` as computed by `renderOverlay`. -/
def computeClipIds (features : List Feature) : Option String × Option String :=
  clipIdsAux 0 (none, none) features

/-- `const CELL_SIZE = 5`. -/
def CELL_SIZE : ℚ := 5

/-- `const HEATMAP_RESOLUTION_WIDTH = 600`. -/
def HEATMAP_RESOLUTION_WIDTH : ℕ := 600

/-- `const HEATMAP_RESOLUTION_HEIGHT = 375`. -/
def HEATMAP_RESOLUTION_HEIGHT : ℕ := 375

/-- `Math.ceil(canvasResolutionWidth / CELL_SIZE)` for natural inputs. -/
def gridCols (canvasResolutionWidth : ℕ) : ℕ := (canvasResolutionWidth + 4) / 5

/-- `Math.ceil(canvasResolutionHeight / CELL_SIZE)` for natural inputs. -/
def gridRows (canvasResolutionHeight : ℕ) : ℕ := (canvasResolutionHeight + 4) / 5

/-- `screenX = imgScreenX + (canvasPxX / canvasResolutionWidth) * imgScreenWidth`
with `canvasPxX = (c + 0.5) * CELL_SIZE` (a plain finite number). -/
def cellScreenX (imgScreenX imgScreenWidth : JVal) (canvasResolutionWidth : ℕ)
    (c : ℕ) : JVal :=
  let canvasPxX : ℚ := ((c : ℚ) + 1/2) * CELL_SIZE
  jadd imgScreenX (jmul (jdiv (.fin canvasPxX) (.fin (canvasResolutionWidth : ℚ))) imgScreenWidth)

/-- `screenY` of the grid cell centre, symmetric to `cellScreenX`. -/
def cellScreenY (imgScreenY imgScreenHeight : JVal) (canvasResolutionHeight : ℕ)
    (r : ℕ) : JVal :=
  let canvasPxY : ℚ := ((r : ℚ) + 1/2) * CELL_SIZE
  jadd imgScreenY (jmul (jdiv (.fin canvasPxY) (.fin (canvasResolutionHeight : ℚ))) imgScreenHeight)

/-- `const interpolatedVal = idw(screenX, screenY, armPoints)` for grid
cell `(c, r)` inside the `processArm` double loop. -/
def cellInterp (armPoints : List DataPoint) (imgScreenX imgScreenY imgScreenWidth imgScreenHeight : JVal)
    (canvasResolutionWidth canvasResolutionHeight : ℕ) (c r : ℕ) : Option JVal :=
  idw (cellScreenX imgScreenX imgScreenWidth canvasResolutionWidth c)
      (cellScreenY imgScreenY imgScreenHeight canvasResolutionHeight r)
      armPoints IDW_POWER

/-- The value painted into cell `(c, r)` — `some v` exactly when
`interpolatedVal !== null && isFinite(interpolatedVal)` and the renderer
calls `ctx.fillRect` with `colorScale(v)`; `none` when the cell is left
unpainted. -/
def cellColor (armPoints : List DataPoint) (imgScreenX imgScreenY imgScreenWidth imgScreenHeight : JVal)
    (canvasResolutionWidth canvasResolutionHeight : ℕ) (c r : ℕ) : Option JVal :=
  match cellInterp armPoints imgScreenX imgScreenY imgScreenWidth imgScreenHeight
      canvasResolutionWidth canvasResolutionHeight c r with
  | some v => if jIsFinite v then some v else none
  | none => none

/-- The painted cells of one arm's offscreen canvas, in the source's
column-major loop order: `(c, r, v)` is listed iff cell `(c, r)` is
filled with `colorScale(v)`. -/
def rasterCells (armPoints : List DataPoint) (imgScreenX imgScreenY imgScreenWidth imgScreenHeight : JVal)
    (canvasResolutionWidth canvasResolutionHeight : ℕ) : List (ℕ × ℕ × JVal) :=
  (List.range (gridCols canvasResolutionWidth)).flatMap (fun c =>
    (List.range (gridRows canvasResolutionHeight)).filterMap (fun r =>
      match cellColor armPoints imgScreenX imgScreenY imgScreenWidth imgScreenHeight
          canvasResolutionWidth canvasResolutionHeight c r with
      | some v => some (c, r, v)
      | none => none))

/-- The bitmap `processArm` produces for one arm: its screen-space
placement and the painted cells. -/
structure ArmRaster where
  imgScreenX : JVal
  imgScreenY : JVal
  imgScreenWidth : JVal
  imgScreenHeight : JVal
  cells : List (ℕ × ℕ × JVal)
deriving DecidableEq, Repr

/-- `processArm` of heatmap-renderer.tsx (lines 176-243).  Returns `none`
on every early `return` (no clip id, no points while stations exist,
unmatched arm feature, non-finite geographic bounds, degenerate projected
box); otherwise the produced raster.  The offscreen canvas and its 2d
context are external DOM collaborators and always available in this model;
`console.warn` diagnostics are not modelled.  The function is total, so a
skipped region can never abort the enclosing render. -/
def processArm (features : List Feature) (project : JVal → JVal → JVal × JVal)
    (stationsLength : ℕ) (armPoints : List DataPoint) (armClipId : Option String)
    (canvasResolutionWidth canvasResolutionHeight : ℕ) : Option ArmRaster :=
  match armClipId with
  | none => none
  | some clipId =>
    if armPoints.length = 0 && stationsLength > 0 then none
    else
      let currentArmSlug := clipIdToSlug (some clipId)
      match features.find? (fun f => slugify (rawLayerOf f "") == currentArmSlug) with
      | none => none
      | some armFeature =>
        let minLng := armFeature.bounds.1.1
        let minLat := armFeature.bounds.1.2
        let maxLng := armFeature.bounds.2.1
        let maxLat := armFeature.bounds.2.2
        if !(jIsFinite minLng) || !(jIsFinite minLat) || !(jIsFinite maxLng) || !(jIsFinite maxLat) then
          none
        else
          let topLeft := project minLng maxLat
          let bottomRight := project maxLng minLat
          let imgScreenX := jmin topLeft.1 bottomRight.1
          let imgScreenY := jmin topLeft.2 bottomRight.2
          let imgScreenWidth := jabs (jsub bottomRight.1 topLeft.1)
          let imgScreenHeight := jabs (jsub bottomRight.2 topLeft.2)
          if jle imgScreenWidth (.fin 0) || jle imgScreenHeight (.fin 0) then none
          else
            some ⟨imgScreenX, imgScreenY, imgScreenWidth, imgScreenHeight,
              rasterCells armPoints imgScreenX imgScreenY imgScreenWidth imgScreenHeight
                canvasResolutionWidth canvasResolutionHeight⟩

/-! ## Station markers (`renderOverlay`, lines 259-279) -/

/-- One rendered station marker: projected position, circle fill, tooltip
(`<title>`) text and label text. -/
structure Marker where
  px : JVal
  py : JVal
  fill : String
  tooltip : String
  labelText : String
deriving DecidableEq, Repr

/-- The neutral fill used when a station has no data. -/
def NO_DATA_FILL : String := "hsl(var(--muted))"

/-- The marker built for one station by the `stations.forEach` loop of
`renderOverlay` (lines 260-279), or `none` when a coordinate is `null`
(`typeof !== 'number'`).  `colorScale` and the `toFixed` number formatting
are external collaborators passed as functions. -/
def markerFor (project : JVal → JVal → JVal × JVal) (colorScale : JVal → String)
    (toFixedFn : JVal → ℕ → String) (data : String → Option JVal)
    (precision : ℕ) (unit : String) (s : Station) : Option Marker :=
  match s.longitude, s.latitude with
  | some lon, some lat =>
    let projected := project lon lat
    match data s.id with
    | some v =>
      if jIsNaN v then
        some ⟨projected.1, projected.2, NO_DATA_FILL, s.name ++ ": No data", s.name⟩
      else
        some ⟨projected.1, projected.2, colorScale v,
          s.name ++ ": " ++ toFixedFn v precision ++ " " ++ unit,
          s.name ++ " (" ++ toFixedFn v precision ++ ")"⟩
    | none => some ⟨projected.1, projected.2, NO_DATA_FILL, s.name ++ ": No data", s.name⟩
  | _, _ => none

/-- All station markers, in station-list order. -/
def mkMarkers (project : JVal → JVal → JVal × JVal) (colorScale : JVal → String)
    (toFixedFn : JVal → ℕ → String) (data : String → Option JVal)
    (precision : ℕ) (unit : String) (stations : List Station) : List Marker :=
  stations.filterMap (markerFor project colorScale toFixedFn data precision unit)

/-! ## The full render pass (`renderOverlay`) -/

/-- What one `renderOverlay` pass puts into the display layer: the two
optional arm rasters, one outline path per feature
(`.data(lakeData.features).join('path')` — drawn for every feature,
whether or not its raster was produced), and the station markers. -/
structure OverlayOutput where
  northRaster : Option ArmRaster
  southRaster : Option ArmRaster
  outlines : List Feature
  markers : List Marker

/-- The data-dependent portion of one `renderOverlay` pass (lines
89-295): partition the stations, derive the clip ids, rasterize each arm
with only its own point list, draw all outlines and all markers. -/
def renderOverlay (features : List Feature) (project : JVal → JVal → JVal × JVal)
    (colorScale : JVal → String) (toFixedFn : JVal → ℕ → String)
    (data : String → Option JVal) (stations : List Station)
    (precision : ℕ) (unit : String) : OverlayOutput :=
  let clipIds := computeClipIds features
  let pts := buildArmPoints project data stations
  { northRaster := processArm features project stations.length pts.1 clipIds.1
      HEATMAP_RESOLUTION_WIDTH HEATMAP_RESOLUTION_HEIGHT
  , southRaster := processArm features project stations.length pts.2 clipIds.2
      HEATMAP_RESOLUTION_WIDTH HEATMAP_RESOLUTION_HEIGHT
  , outlines := features
  , markers := mkMarkers project colorScale toFixedFn data precision unit stations }

/-- The interpolated value of north-arm grid cell `(c, r)` in one render
pass: `processArm` is called with the north point list only. -/
def northCellInterp (project : JVal → JVal → JVal × JVal) (data : String → Option JVal)
    (stations : List Station) (imgScreenX imgScreenY imgScreenWidth imgScreenHeight : JVal)
    (canvasResolutionWidth canvasResolutionHeight : ℕ) (c r : ℕ) : Option JVal :=
  cellInterp (buildArmPoints project data stations).1 imgScreenX imgScreenY
    imgScreenWidth imgScreenHeight canvasResolutionWidth canvasResolutionHeight c r

/-- The interpolated value of south-arm grid cell `(c, r)` in one render
pass: `processArm` is called with the south point list only. -/
def southCellInterp (project : JVal → JVal → JVal × JVal) (data : String → Option JVal)
    (stations : List Station) (imgScreenX imgScreenY imgScreenWidth imgScreenHeight : JVal)
    (canvasResolutionWidth canvasResolutionHeight : ℕ) (c r : ℕ) : Option JVal :=
  cellInterp (buildArmPoints project data stations).2 imgScreenX imgScreenY
    imgScreenWidth imgScreenHeight canvasResolutionWidth canvasResolutionHeight c r

/-! ## Playback timer (time/variable selection state) -/

/-- The playback-relevant component state of `GreatSaltLakeHeatmap`. -/
structure PlaybackState where
  currentTimeIndex : ℕ
  playing : Bool
deriving DecidableEq, Repr

/-- One firing of the animation `setInterval` in the current main
component `src/components/map/great-salt-lake-heatmap.tsx` (lines
117-136): the timer is active only while `playing && timePoints.length > 0`;
its callback increments the index and loops back to `0` past the end
(`return 0; // Loop back to the beginning`), leaving `playing` untouched. -/
def mainTick (timePointsLength : ℕ) (s : PlaybackState) : PlaybackState :=
  if s.playing && decide (timePointsLength > 0) then
    let nextIndex := s.currentTimeIndex + 1
    if nextIndex ≥ timePointsLength then { s with currentTimeIndex := 0 }
    else { s with currentTimeIndex := nextIndex }
  else s

/-- One firing of the animation `setInterval` in the unnamed earlier
variants of the component (`src/unnamed/part_005` lines 143-153 and
`src/unnamed/part_006` lines 106-126): past the end it calls
`setPlaying(false)` and clamps the index to `timePoints.length - 1`
(stop-at-end). -/
def variantTick (timePointsLength : ℕ) (s : PlaybackState) : PlaybackState :=
  if s.playing && decide (timePointsLength > 0) then
    let nextIndex := s.currentTimeIndex + 1
    if nextIndex ≥ timePointsLength then
      { currentTimeIndex := if timePointsLength > 0 then timePointsLength - 1 else 0
      , playing := false }
    else { s with currentTimeIndex := nextIndex }
  else s

/-- Boolean check that a `JVal` is a finite value within `[lo, hi]` (used
to state the output-bounds property of `idw`). -/
def valWithin (lo hi : ℚ) : JVal → Bool
  | .fin v => decide (lo ≤ v) && decide (v ≤ hi)
  | _ => false

/-! ## Sanity checks of the embedding on concrete inputs -/

example : slugify "GSL4194PolyNA" = "gsl4194polyna" := by decide
example : slugify "  North -- Arm! " = "north-arm" := by decide
example : clipIdToSlug (some "maplibreo-lake-clip-gsl4194polyna") = "gsl4194polyna" := by decide
example : strIncludes "gsl4194polyna" "polyna" = true := by decide

example : mainTick 3 ⟨2, true⟩ = ⟨0, true⟩ := by decide
example : variantTick 3 ⟨2, true⟩ = ⟨2, false⟩ := by decide
example : variantTick 3 ⟨1, true⟩ = ⟨2, true⟩ := by decide

example : idw (.fin 0) (.fin 0) [⟨.fin 0, .fin 0, .fin 9⟩] IDW_POWER = some (.fin 9) := by
  norm_num [idw, idwLoop, dSqOf, weightOf, idwEpsilon, IDW_POWER,
    jadd, jsub, jneg, jmul, jdiv, jpow, jlt, jle, jeq, jIsFinite]

example : idw (.fin 0) (.fin 0) [] IDW_POWER = none := by
  norm_num [idw, idwLoop, jeq, jIsFinite]

example : idw (.fin 0) (.fin 0)
    [⟨.fin 1, .fin 0, .fin 5⟩, ⟨.fin 0, .fin 1, .fin 7⟩] IDW_POWER = some (.fin 6) := by
  norm_num [idw, idwLoop, dSqOf, weightOf, idwEpsilon, IDW_POWER,
    jadd, jsub, jneg, jmul, jdiv, jpow, jlt, jle, jeq, jIsFinite]

example : idw (.fin 0) (.fin 0) [⟨.nan, .nan, .fin 5⟩] IDW_POWER = none := by
  norm_num [idw, idwLoop, dSqOf, weightOf, idwEpsilon, IDW_POWER,
    jadd, jsub, jneg, jmul, jdiv, jpow, jlt, jle, jeq, jIsFinite]

/-! ## Basic facts about the JS-number model -/

theorem jadd_nan_right (x : JVal) : jadd x .nan = .nan := by cases x <;> rfl

theorem jadd_nan_left (y : JVal) : jadd .nan y = .nan := by cases y <;> rfl

theorem jmul_nan_right (x : JVal) : jmul x .nan = .nan := by cases x <;> rfl

theorem jsub_nan_right (x : JVal) : jsub x .nan = .nan := by cases x <;> rfl

theorem jadd_fin_fin (a b : ℚ) : jadd (.fin a) (.fin b) = .fin (a + b) := rfl

theorem jmul_fin_fin (a b : ℚ) : jmul (.fin a) (.fin b) = .fin (a * b) := rfl

theorem jpow_fin (a : ℚ) : ∀ k : ℕ, jpow (.fin a) k = .fin (a ^ k)
  | 0 => by simp [jpow]
  | k + 1 => by
    rw [jpow, jpow_fin a k, jmul_fin_fin, ← pow_succ']

theorem jmul_nan_left (y : JVal) : jmul .nan y = .nan := by cases y <;> rfl

theorem jpow_nan_succ (k : ℕ) : jpow .nan (k + 1) = .nan := by
  rw [jpow]; exact jmul_nan_left _

theorem jpow_posInf_succ : ∀ k : ℕ, jpow .posInf (k + 1) = .posInf
  | 0 => by norm_num [jpow, jmul]
  | k + 1 => by rw [jpow, jpow_posInf_succ k]; rfl

theorem jdiv_one_posInf : jdiv (.fin 1) .posInf = .fin 0 := rfl

theorem jdiv_one_nan : jdiv (.fin 1) .nan = .nan := rfl

theorem jdiv_fin_fin_of_ne (a b : ℚ) (hb : b ≠ 0) :
    jdiv (.fin a) (.fin b) = .fin (a / b) := by
  simp [jdiv, hb]

theorem jIsFinite_iff (x : JVal) : jIsFinite x = true ↔ ∃ q : ℚ, x = .fin q := by
  cases x <;> simp [jIsFinite]

/-- The structure of a JS square: `jpow z 2` is NaN, +Infinity, or a
non-negative finite value. -/
theorem jpow_two_cases (z : JVal) :
    jpow z 2 = .nan ∨ jpow z 2 = .posInf ∨ ∃ d : ℚ, jpow z 2 = .fin d ∧ 0 ≤ d := by
  cases z with
  | nan => exact Or.inl rfl
  | posInf => exact Or.inr (Or.inl (jpow_posInf_succ 1))
  | negInf =>
    refine Or.inr (Or.inl ?_)
    show jmul .negInf (jmul .negInf (.fin 1)) = .posInf
    norm_num [jmul]
  | fin a =>
    refine Or.inr (Or.inr ⟨a ^ 2, jpow_fin a 2, sq_nonneg a⟩)

/-- The structure of the squared screen distance computed by `idw`:
NaN, +Infinity, or a non-negative finite value. -/
theorem dSq_cases (x y : JVal) (pt : DataPoint) :
    dSqOf x y pt = .nan ∨ dSqOf x y pt = .posInf ∨
      ∃ d : ℚ, dSqOf x y pt = .fin d ∧ 0 ≤ d := by
  unfold dSqOf
  rcases jpow_two_cases (jsub x pt.x) with h1 | h1 | ⟨d1, h1, hd1⟩ <;>
    rcases jpow_two_cases (jsub y pt.y) with h2 | h2 | ⟨d2, h2, hd2⟩ <;>
      rw [h1, h2]
  · exact Or.inl rfl
  · exact Or.inl rfl
  · exact Or.inl rfl
  · exact Or.inl (jadd_nan_right _)
  · exact Or.inr (Or.inl rfl)
  · exact Or.inr (Or.inl rfl)
  · exact Or.inl (jadd_nan_right _)
  · exact Or.inr (Or.inl rfl)
  · exact Or.inr (Or.inr ⟨d1 + d2, rfl, by linarith⟩)

/-- If a point passes the exact-match and finiteness guards of the `idw`
loop, its weight is a non-negative finite value. -/
theorem weight_nonneg (x y : JVal) (pt : DataPoint) (pwr : ℕ)
    (hlt : jlt (dSqOf x y pt) (.fin idwEpsilon) = false)
    (wq : ℚ) (hw : weightOf (dSqOf x y pt) pwr = .fin wq) : 0 ≤ wq := by
  rcases dSq_cases x y pt with h | h | ⟨d, h, hd⟩
  · rw [h] at hw
    unfold weightOf at hw
    rcases Nat.eq_zero_or_pos (pwr / 2) with hk | hk
    · rw [hk] at hw
      norm_num [jpow, jdiv] at hw
      linarith [hw]
    · obtain ⟨k, hk2⟩ := Nat.exists_eq_add_of_lt hk
      rw [hk2, Nat.zero_add, jpow_nan_succ, jdiv_one_nan] at hw
      cases hw
  · rw [h] at hw
    unfold weightOf at hw
    rcases Nat.eq_zero_or_pos (pwr / 2) with hk | hk
    · rw [hk] at hw
      norm_num [jpow, jdiv] at hw
      linarith [hw]
    · obtain ⟨k, hk2⟩ := Nat.exists_eq_add_of_lt hk
      rw [hk2, Nat.zero_add, jpow_posInf_succ, jdiv_one_posInf] at hw
      injection hw with h0
      exact le_of_eq h0
  · rw [h] at hlt hw
    have hdpos : 0 < d := by
      by_contra hcon
      push_neg at hcon
      have : d < idwEpsilon := lt_of_le_of_lt hcon (by norm_num [idwEpsilon])
      simp [jlt, this] at hlt
    unfold weightOf at hw
    rw [jpow_fin] at hw
    have hpk : (0 : ℚ) < d ^ (pwr / 2) := pow_pos hdpos _
    rw [jdiv_fin_fin_of_ne _ _ (ne_of_gt hpk)] at hw
    injection hw with h0
    rw [← h0]
    positivity

/-! ## The match short-circuit of `idw` -/

/-- The `match` variable of the `idw` loop is the value of the first point
(in list order) whose squared distance to the target is below `1e-8`,
independent of the accumulators. -/
theorem idwLoop_matchPart (x y : JVal) (pwr : ℕ) (points : List DataPoint) :
    ∀ num den : JVal,
      (idwLoop x y pwr points num den).2.2 =
        (points.find? (fun pt => jlt (dSqOf x y pt) (.fin idwEpsilon))).map DataPoint.value := by
  induction points with
  | nil => intro num den; rfl
  | cons pt rest ih =>
    intro num den
    cases h : jlt (dSqOf x y pt) (.fin idwEpsilon) with
    | true => simp [idwLoop, List.find?_cons, h]
    | false =>
      simp only [idwLoop, List.find?_cons, h, Bool.false_eq_true, if_false]
      split
      · exact ih _ _
      · split
        · exact ih _ _
        · exact ih _ _

/-! ## The accumulator invariant of the `idw` loop -/

/-- Main loop invariant of `idw`: starting from finite accumulators, the
accumulators stay finite, the weight sum never decreases, and the
numerator moves by an amount bounded between the extreme point values
times the weight-sum increment.  The match component is the value of the
first in-range point. -/
theorem idwLoop_bounds (x y : JVal) (pwr : ℕ) (lo hi : ℚ) :
    ∀ (points : List DataPoint) (n0 d0 : ℚ),
      (∀ pt ∈ points, valWithin lo hi pt.value = true) →
      ∃ n d : ℚ,
        idwLoop x y pwr points (.fin n0) (.fin d0) =
          (.fin n, .fin d,
            (points.find? (fun pt => jlt (dSqOf x y pt) (.fin idwEpsilon))).map DataPoint.value) ∧
        d0 ≤ d ∧ lo * (d - d0) ≤ n - n0 ∧ n - n0 ≤ hi * (d - d0) := by
  intro points
  induction points with
  | nil =>
    intro n0 d0 _
    exact ⟨n0, d0, rfl, le_refl _, by simp, by simp⟩
  | cons pt rest ih =>
    intro n0 d0 hv
    have hvpt := hv pt (List.mem_cons_self _ _)
    have hvrest : ∀ p ∈ rest, valWithin lo hi p.value = true :=
      fun p hp => hv p (List.mem_cons_of_mem _ hp)
    cases hm : jlt (dSqOf x y pt) (.fin idwEpsilon) with
    | true =>
      refine ⟨n0, d0, ?_, le_refl _, by simp, by simp⟩
      simp [idwLoop, List.find?_cons, hm]
    | false =>
      cases he : jeq (dSqOf x y pt) (.fin 0) with
      | true =>
        obtain ⟨n, d, heq, hd, hlo, hhi⟩ := ih n0 d0 hvrest
        refine ⟨n, d, ?_, hd, hlo, hhi⟩
        simp only [idwLoop, List.find?_cons, hm, he, Bool.false_eq_true, if_false, if_true]
        exact heq
      | false =>
        cases hf : jIsFinite (weightOf (dSqOf x y pt) pwr) with
        | false =>
          obtain ⟨n, d, heq, hd, hlo, hhi⟩ := ih n0 d0 hvrest
          refine ⟨n, d, ?_, hd, hlo, hhi⟩
          simp only [idwLoop, List.find?_cons, hm, he, hf, Bool.false_eq_true, if_false]
          exact heq
        | true =>
          obtain ⟨wq, hwq⟩ := (jIsFinite_iff _).mp hf
          have hw0 : 0 ≤ wq := weight_nonneg x y pt pwr hm wq hwq
          have hfin : ∃ vq : ℚ, pt.value = .fin vq ∧ lo ≤ vq ∧ vq ≤ hi := by
            cases hvv : pt.value with
            | fin v =>
              rw [hvv] at hvpt
              simp [valWithin] at hvpt
              exact ⟨v, rfl, hvpt.1, hvpt.2⟩
            | nan => rw [hvv] at hvpt; simp [valWithin] at hvpt
            | posInf => rw [hvv] at hvpt; simp [valWithin] at hvpt
            | negInf => rw [hvv] at hvpt; simp [valWithin] at hvpt
          obtain ⟨vq, hvq, hlov, hvhi⟩ := hfin
          obtain ⟨n, d, heq, hd, hlo, hhi⟩ := ih (n0 + vq * wq) (d0 + wq) hvrest
          refine ⟨n, d, ?_, by linarith, ?_, ?_⟩
          · simp only [idwLoop, List.find?_cons, hm, he, hf, Bool.false_eq_true, if_false,
              if_true]
            rw [hvq, hwq, jmul_fin_fin, jadd_fin_fin, jadd_fin_fin]
            exact heq
          · nlinarith [mul_nonneg (sub_nonneg.mpr hlov) hw0]
          · nlinarith [mul_nonneg (sub_nonneg.mpr hvhi) hw0]

/-! ## Claim C1: exact-match short-circuit of `idw` -/

/-- C1: for every list of data points and every target coordinate, if some
point lies within epsilon of the target (squared screen distance below
`1e-8`), then `idw` returns exactly the value of a point within epsilon of
the target — a measured value, not a weighted average. -/
theorem idw_exact_match (x y : JVal) (pwr : ℕ) (points : List DataPoint)
    (h : ∃ pt ∈ points, jlt (dSqOf x y pt) (.fin idwEpsilon) = true) :
    ∃ pt ∈ points, jlt (dSqOf x y pt) (.fin idwEpsilon) = true ∧
      idw x y points pwr = some pt.value := by
  obtain ⟨pt₀, hmem₀, hpt₀⟩ := h
  cases hfind : points.find? (fun pt => jlt (dSqOf x y pt) (.fin idwEpsilon)) with
  | none =>
    rw [List.find?_eq_none] at hfind
    exact absurd hpt₀ (by simpa using hfind pt₀ hmem₀)
  | some p =>
    refine ⟨p, List.mem_of_find?_eq_some hfind, ?_, ?_⟩
    · simpa using List.find?_some hfind
    · simp only [idw]
      rw [idwLoop_matchPart x y pwr points (.fin 0) (.fin 0), hfind]
      rfl

/-- Witness for C1: a target coinciding with the single station point
recovers that station's measured value. -/
theorem idw_exact_match_witness :
    ∃ pt ∈ [(⟨.fin 2, .fin 3, .fin 11⟩ : DataPoint)],
      jlt (dSqOf (.fin 2) (.fin 3) pt) (.fin idwEpsilon) = true ∧
      idw (.fin 2) (.fin 3) [⟨.fin 2, .fin 3, .fin 11⟩] IDW_POWER = some pt.value :=
  idw_exact_match (.fin 2) (.fin 3) IDW_POWER [⟨.fin 2, .fin 3, .fin 11⟩]
    ⟨⟨.fin 2, .fin 3, .fin 11⟩, by simp, by
      norm_num [dSqOf, jsub, jneg, jadd, jmul, jpow, jlt, idwEpsilon]⟩

/-! ## Claim C10: first-match order dependence of `idw` -/

/-- C10: when several points lie within epsilon of the target, `idw`
returns the value of the earliest such point in list order, and the points
after it never influence the result (the loop `break`s), so the result of
coincident points with different values depends on list order. -/
theorem idw_first_match_order (x y : JVal) (pwr : ℕ) (pre post : List DataPoint)
    (p : DataPoint)
    (hpre : ∀ pt ∈ pre, jlt (dSqOf x y pt) (.fin idwEpsilon) = false)
    (hp : jlt (dSqOf x y p) (.fin idwEpsilon) = true) :
    idw x y (pre ++ p :: post) pwr = some p.value := by
  have hfp : (pre ++ p :: post).find? (fun pt => jlt (dSqOf x y pt) (.fin idwEpsilon))
      = some p := by
    rw [List.find?_append]
    have h1 : pre.find? (fun pt => jlt (dSqOf x y pt) (.fin idwEpsilon)) = none :=
      List.find?_eq_none.mpr (fun pt hm => by simp [hpre pt hm])
    rw [h1]
    simp [List.find?_cons, hp]
  simp only [idw]
  rw [idwLoop_matchPart x y pwr _ (.fin 0) (.fin 0), hfp]
  rfl

/-- Witness for C10: two points coincident with the target but carrying
different values; the earlier one (value 2) wins and the later one
(value 3) is never examined. -/
theorem idw_first_match_order_witness :
    idw (.fin 0) (.fin 0)
      [⟨.fin 5, .fin 0, .fin 1⟩, ⟨.fin 0, .fin 0, .fin 2⟩, ⟨.fin 0, .fin 0, .fin 3⟩]
      IDW_POWER = some (.fin 2) :=
  idw_first_match_order (.fin 0) (.fin 0) IDW_POWER [⟨.fin 5, .fin 0, .fin 1⟩]
    [⟨.fin 0, .fin 0, .fin 3⟩] ⟨.fin 0, .fin 0, .fin 2⟩
    (by
      intro pt hm
      simp at hm
      subst hm
      norm_num [dSqOf, jsub, jneg, jadd, jmul, jpow, jlt, idwEpsilon])
    (by norm_num [dSqOf, jsub, jneg, jadd, jmul, jpow, jlt, idwEpsilon])

/-! ## Claim C4: a constant field is interpolated exactly -/

/-- C4: for every non-empty point list whose points all carry the same
finite value `q`, with no point coinciding with the target and a positive
(hence finite) weight sum, `idw` returns exactly `q` — the weighted
average of equal values is invariant. -/
theorem idw_constant_field (x y : JVal) (pwr : ℕ) (points : List DataPoint) (q : ℚ)
    (_hne : points ≠ [])
    (hval : ∀ pt ∈ points, pt.value = .fin q)
    (hnomatch : ∀ pt ∈ points, jlt (dSqOf x y pt) (.fin idwEpsilon) = false)
    (d : ℚ) (hden : (idwLoop x y pwr points (.fin 0) (.fin 0)).2.1 = .fin d)
    (hdpos : 0 < d) :
    idw x y points pwr = some (.fin q) := by
  have hv : ∀ pt ∈ points, valWithin q q pt.value = true := by
    intro pt hm
    rw [hval pt hm]
    simp [valWithin]
  obtain ⟨n, d', heq, hd0, hlo, hhi⟩ := idwLoop_bounds x y pwr q q points 0 0 hv
  have hfind : points.find? (fun pt => jlt (dSqOf x y pt) (.fin idwEpsilon)) = none :=
    List.find?_eq_none.mpr (fun pt hm => by simp [hnomatch pt hm])
  rw [heq] at hden
  simp only at hden
  injection hden with hdd
  rw [← hdd] at hdpos
  have hne0 : d' ≠ 0 := ne_of_gt hdpos
  have hn : n = q * d' := by linarith
  simp only [idw]
  rw [heq, hfind]
  simp only [Option.map_none']
  have hcond : (jeq (.fin d') (.fin 0) || !(jIsFinite (.fin d'))) = false := by
    simp [jeq, jIsFinite, hne0]
  rw [hcond]
  simp only [Bool.false_eq_true, if_false]
  rw [jdiv_fin_fin_of_ne _ _ hne0, hn, mul_div_cancel_right₀ _ hne0]

/-- Witness for C4: two equidistant points both valued `7` interpolate to
exactly `7` away from the stations. -/
theorem idw_constant_field_witness :
    idw (.fin 0) (.fin 0) [⟨.fin 1, .fin 0, .fin 7⟩, ⟨.fin 0, .fin 1, .fin 7⟩]
      IDW_POWER = some (.fin 7) :=
  idw_constant_field (.fin 0) (.fin 0) IDW_POWER
    [⟨.fin 1, .fin 0, .fin 7⟩, ⟨.fin 0, .fin 1, .fin 7⟩] 7
    (by simp)
    (by
      intro pt hm
      rcases List.mem_cons.mp hm with h | h
      · subst h; rfl
      · simp at h; subst h; rfl)
    (by
      intro pt hm
      rcases List.mem_cons.mp hm with h | h
      · subst h
        norm_num [dSqOf, jsub, jneg, jadd, jmul, jpow, jlt, idwEpsilon]
      · simp at h; subst h
        norm_num [dSqOf, jsub, jneg, jadd, jmul, jpow, jlt, idwEpsilon])
    2
    (by
      norm_num [idwLoop, dSqOf, weightOf, idwEpsilon, IDW_POWER,
        jadd, jsub, jneg, jmul, jdiv, jpow, jlt, jle, jeq, jIsFinite])
    (by norm_num)

/-! ## Claim C8: the interpolated value lies between the extreme inputs -/

/-- C8 (implicit output-bounds invariant): whenever every input point
value is a finite value in `[lo, hi]`, any non-null result of `idw` is a
finite value in `[lo, hi]` — every weight is non-negative, so the weighted
average cannot escape the range of the inputs. -/
theorem idw_output_bounds (x y : JVal) (pwr : ℕ) (points : List DataPoint) (lo hi : ℚ)
    (hvals : ∀ pt ∈ points, valWithin lo hi pt.value = true)
    (r : JVal) (hr : idw x y points pwr = some r) :
    valWithin lo hi r = true := by
  obtain ⟨n, d, heq, hd0, hlo, hhi⟩ := idwLoop_bounds x y pwr lo hi points 0 0 hvals
  simp only [idw] at hr
  rw [heq] at hr
  cases hfind : points.find? (fun pt => jlt (dSqOf x y pt) (.fin idwEpsilon)) with
  | some p =>
    rw [hfind] at hr
    simp only [Option.map_some'] at hr
    injection hr with hrv
    rw [← hrv]
    exact hvals p (List.mem_of_find?_eq_some hfind)
  | none =>
    rw [hfind] at hr
    simp only [Option.map_none'] at hr
    by_cases hd : d = 0
    · rw [hd] at hr
      simp [jeq, jIsFinite] at hr
    · have hcond : (jeq (.fin d) (.fin 0) || !(jIsFinite (.fin d))) = false := by
        simp [jeq, jIsFinite, hd]
      rw [hcond] at hr
      simp only [Bool.false_eq_true, if_false] at hr
      rw [jdiv_fin_fin_of_ne _ _ hd] at hr
      injection hr with hrv
      have hdpos : 0 < d := lt_of_le_of_ne (by linarith) (Ne.symm hd)
      rw [← hrv]
      simp only [valWithin, Bool.and_eq_true, decide_eq_true_eq]
      constructor
      · rw [le_div_iff₀ hdpos]
        linarith
      · rw [div_le_iff₀ hdpos]
        linarith

/-- Witness for C8: two points valued 5 and 7 at distance 1 from the
target; the interpolated value 6 is a finite value within `[5, 7]`. -/
theorem idw_output_bounds_witness :
    valWithin 5 7 (.fin 6) = true :=
  idw_output_bounds (.fin 0) (.fin 0) IDW_POWER
    [⟨.fin 1, .fin 0, .fin 5⟩, ⟨.fin 0, .fin 1, .fin 7⟩] 5 7
    (by
      intro pt hm
      rcases List.mem_cons.mp hm with h | h
      · subst h; norm_num [valWithin]
      · simp at h; subst h; norm_num [valWithin])
    (.fin 6)
    (by
      norm_num [idw, idwLoop, dSqOf, weightOf, idwEpsilon, IDW_POWER,
        jadd, jsub, jneg, jmul, jdiv, jpow, jlt, jle, jeq, jIsFinite])

/-! ## Claim C2: `idw` returns null on degenerate input and such cells stay unpainted -/

/-- A point whose `x` coordinate is NaN contributes nothing: its squared
distance is NaN, so every guard of the loop body skips it. -/
theorem idwLoop_nanCoords (x y : JVal) :
    ∀ points : List DataPoint, (∀ pt ∈ points, pt.x = .nan) →
      ∀ num den, idwLoop x y IDW_POWER points num den = (num, den, none) := by
  intro points
  induction points with
  | nil => intro _ num den; rfl
  | cons pt rest ih =>
    intro h num den
    have hx := h pt (List.mem_cons_self _ _)
    have hd : dSqOf x y pt = .nan := by
      rw [dSqOf, hx]
      have h1 : jsub x .nan = .nan := by rw [jsub]; exact jadd_nan_right _
      rw [h1, jpow_nan_succ]
      exact jadd_nan_left _
    have hw : weightOf JVal.nan IDW_POWER = .nan := by
      rw [weightOf]
      show jdiv (.fin 1) (jpow .nan 1) = .nan
      rw [show (1 : ℕ) = 0 + 1 from rfl, jpow_nan_succ]
      rfl
    simp only [idwLoop, hd, hw]
    simp only [jlt, jeq, jIsFinite, Bool.false_eq_true, if_false]
    exact ih (fun p hp => h p (List.mem_cons_of_mem _ hp)) num den

/-- A painted raster cell always comes from a defined, finite interpolated
value at that cell. -/
theorem mem_rasterCells (armPoints : List DataPoint)
    (imgScreenX imgScreenY imgScreenWidth imgScreenHeight : JVal)
    (canvasResolutionWidth canvasResolutionHeight : ℕ) (c r : ℕ) (v : JVal)
    (h : (c, r, v) ∈ rasterCells armPoints imgScreenX imgScreenY imgScreenWidth imgScreenHeight
      canvasResolutionWidth canvasResolutionHeight) :
    cellColor armPoints imgScreenX imgScreenY imgScreenWidth imgScreenHeight
      canvasResolutionWidth canvasResolutionHeight c r = some v := by
  unfold rasterCells at h
  rw [List.mem_flatMap] at h
  obtain ⟨c', _, h⟩ := h
  rw [List.mem_filterMap] at h
  obtain ⟨r', _, hcr⟩ := h
  cases hcol : cellColor armPoints imgScreenX imgScreenY imgScreenWidth imgScreenHeight
      canvasResolutionWidth canvasResolutionHeight c' r' with
  | none => rw [hcol] at hcr; cases hcr
  | some v' =>
    rw [hcol] at hcr
    injection hcr with h1
    injection h1 with h2 h3
    injection h3 with h4 h5
    subst h2; subst h4; subst h5
    exact hcol

/-- C2: `idw` returns null for an empty point list; more generally it
returns null whenever every computed weight is non-finite (for instance
when every point has a NaN coordinate) or the weight sum is zero or
non-finite; and the rasterizer paints no color into a grid cell whose
interpolated value is null or non-finite. -/
theorem idw_null_and_unpainted :
    (∀ x y pwr, idw x y [] pwr = none)
    ∧ (∀ x y points, (∀ pt ∈ points, pt.x = .nan) → idw x y points IDW_POWER = none)
    ∧ (∀ x y pwr points,
        (idwLoop x y pwr points (.fin 0) (.fin 0)).2.2 = none →
        (jeq (idwLoop x y pwr points (.fin 0) (.fin 0)).2.1 (.fin 0)
          || !(jIsFinite (idwLoop x y pwr points (.fin 0) (.fin 0)).2.1)) = true →
        idw x y points pwr = none)
    ∧ (∀ armPoints imgScreenX imgScreenY imgScreenWidth imgScreenHeight
        canvasResolutionWidth canvasResolutionHeight c r,
        cellInterp armPoints imgScreenX imgScreenY imgScreenWidth imgScreenHeight
          canvasResolutionWidth canvasResolutionHeight c r = none →
        ∀ v, (c, r, v) ∉ rasterCells armPoints imgScreenX imgScreenY imgScreenWidth
          imgScreenHeight canvasResolutionWidth canvasResolutionHeight)
    ∧ (∀ armPoints imgScreenX imgScreenY imgScreenWidth imgScreenHeight
        canvasResolutionWidth canvasResolutionHeight c r u,
        cellInterp armPoints imgScreenX imgScreenY imgScreenWidth imgScreenHeight
          canvasResolutionWidth canvasResolutionHeight c r = some u →
        jIsFinite u = false →
        ∀ v, (c, r, v) ∉ rasterCells armPoints imgScreenX imgScreenY imgScreenWidth
          imgScreenHeight canvasResolutionWidth canvasResolutionHeight) := by
  refine ⟨fun x y pwr => rfl, ?_, ?_, ?_, ?_⟩
  · intro x y points h
    simp only [idw]
    rw [idwLoop_nanCoords x y points h (.fin 0) (.fin 0)]
    simp [jeq, jIsFinite]
  · intro x y pwr points hmatch hcond
    simp only [idw]
    cases hres : idwLoop x y pwr points (.fin 0) (.fin 0) with
    | mk num rest2 =>
      cases rest2 with
      | mk den m =>
        rw [hres] at hmatch hcond
        simp only at hmatch hcond
        subst hmatch
        simp only [hcond, if_true]
  · intro armPoints imgScreenX imgScreenY imgScreenWidth imgScreenHeight cw ch c r hnone v hmem
    have := mem_rasterCells armPoints imgScreenX imgScreenY imgScreenWidth imgScreenHeight
      cw ch c r v hmem
    rw [cellColor, hnone] at this
    cases this
  · intro armPoints imgScreenX imgScreenY imgScreenWidth imgScreenHeight cw ch c r u
      hsome hnf v hmem
    have := mem_rasterCells armPoints imgScreenX imgScreenY imgScreenWidth imgScreenHeight
      cw ch c r v hmem
    rw [cellColor, hsome] at this
    simp only [hnf, Bool.false_eq_true, if_false] at this
    cases this

/-- Witness for C2: a single all-NaN-coordinate point yields a null
interpolation, and the cell whose interpolation is null is never painted. -/
theorem idw_null_and_unpainted_witness :
    idw (.fin 0) (.fin 0) [⟨.nan, .nan, .fin 5⟩] IDW_POWER = none ∧
      (0, 0, JVal.fin 5) ∉ rasterCells [] (.fin 0) (.fin 0) (.fin 10) (.fin 10) 10 10 :=
  ⟨idw_null_and_unpainted.2.1 (.fin 0) (.fin 0) [⟨.nan, .nan, .fin 5⟩]
      (by intro pt hpt; simp at hpt; subst hpt; rfl),
    idw_null_and_unpainted.2.2.2.1 [] (.fin 0) (.fin 0) (.fin 10) (.fin 10) 10 10 0 0
      (by norm_num [cellInterp, cellScreenX, cellScreenY, CELL_SIZE, idw, idwLoop,
        jadd, jsub, jneg, jmul, jdiv, jpow, jeq, jIsFinite])
      (JVal.fin 5)⟩

/-! ## Claim C3: region independence of the two arms -/

/-- C3 (two-run noninterference): stations are partitioned into the north
and south point lists before `idw` is called, and each `processArm` call
receives only its own region's points — so two render passes whose north
point lists agree compute identical interpolated values at every
north-region grid cell, whatever happened to the south points, and
symmetrically for the south region. -/
theorem region_independence
    (project : JVal → JVal → JVal × JVal) (data₁ data₂ : String → Option JVal)
    (stations₁ stations₂ : List Station)
    (imgScreenX imgScreenY imgScreenWidth imgScreenHeight : JVal)
    (canvasResolutionWidth canvasResolutionHeight : ℕ) :
    ((buildArmPoints project data₁ stations₁).1 = (buildArmPoints project data₂ stations₂).1 →
      ∀ c r, northCellInterp project data₁ stations₁ imgScreenX imgScreenY imgScreenWidth
          imgScreenHeight canvasResolutionWidth canvasResolutionHeight c r =
        northCellInterp project data₂ stations₂ imgScreenX imgScreenY imgScreenWidth
          imgScreenHeight canvasResolutionWidth canvasResolutionHeight c r)
    ∧ ((buildArmPoints project data₁ stations₁).2 = (buildArmPoints project data₂ stations₂).2 →
      ∀ c r, southCellInterp project data₁ stations₁ imgScreenX imgScreenY imgScreenWidth
          imgScreenHeight canvasResolutionWidth canvasResolutionHeight c r =
        southCellInterp project data₂ stations₂ imgScreenX imgScreenY imgScreenWidth
          imgScreenHeight canvasResolutionWidth canvasResolutionHeight c r) := by
  constructor
  · intro h c r
    unfold northCellInterp
    rw [h]
  · intro h c r
    unfold southCellInterp
    rw [h]

/-- Witness for C3: two runs sharing the north station (RD2) but with the
south station (AS-2) valued 20 in one run and 99 in the other: the north
lists agree, the south lists differ, and the north-cell interpolation at
cell (0, 0) agrees. -/
theorem region_independence_witness :
    (buildArmPoints (fun a b => (a, b))
        (fun id => if id = "RD2" then some (.fin 10) else some (.fin 20))
        [⟨"RD2", "Rd2", some (.fin 1), some (.fin 2)⟩,
         ⟨"AS-2", "As2", some (.fin 3), some (.fin 4)⟩]).1 =
      (buildArmPoints (fun a b => (a, b))
        (fun id => if id = "RD2" then some (.fin 10) else some (.fin 99))
        [⟨"RD2", "Rd2", some (.fin 1), some (.fin 2)⟩,
         ⟨"AS-2", "As2", some (.fin 3), some (.fin 4)⟩]).1
    ∧ (buildArmPoints (fun a b => (a, b))
        (fun id => if id = "RD2" then some (.fin 10) else some (.fin 20))
        [⟨"RD2", "Rd2", some (.fin 1), some (.fin 2)⟩,
         ⟨"AS-2", "As2", some (.fin 3), some (.fin 4)⟩]).2 ≠
      (buildArmPoints (fun a b => (a, b))
        (fun id => if id = "RD2" then some (.fin 10) else some (.fin 99))
        [⟨"RD2", "Rd2", some (.fin 1), some (.fin 2)⟩,
         ⟨"AS-2", "As2", some (.fin 3), some (.fin 4)⟩]).2
    ∧ northCellInterp (fun a b => (a, b))
        (fun id => if id = "RD2" then some (.fin 10) else some (.fin 20))
        [⟨"RD2", "Rd2", some (.fin 1), some (.fin 2)⟩,
         ⟨"AS-2", "As2", some (.fin 3), some (.fin 4)⟩]
        (.fin 0) (.fin 0) (.fin 100) (.fin 100) 100 100 0 0 =
      northCellInterp (fun a b => (a, b))
        (fun id => if id = "RD2" then some (.fin 10) else some (.fin 99))
        [⟨"RD2", "Rd2", some (.fin 1), some (.fin 2)⟩,
         ⟨"AS-2", "As2", some (.fin 3), some (.fin 4)⟩]
        (.fin 0) (.fin 0) (.fin 100) (.fin 100) 100 100 0 0 := by
  refine ⟨?_, ?_, ?_⟩
  · decide
  · decide
  · exact (region_independence (fun a b => (a, b))
      (fun id => if id = "RD2" then some (.fin 10) else some (.fin 20))
      (fun id => if id = "RD2" then some (.fin 10) else some (.fin 99))
      [⟨"RD2", "Rd2", some (.fin 1), some (.fin 2)⟩,
       ⟨"AS-2", "As2", some (.fin 3), some (.fin 4)⟩]
      [⟨"RD2", "Rd2", some (.fin 1), some (.fin 2)⟩,
       ⟨"AS-2", "As2", some (.fin 3), some (.fin 4)⟩]
      (.fin 0) (.fin 0) (.fin 100) (.fin 100) 100 100).1 (by decide) 0 0

/-! ## Claim C9: region assignment is the fixed id set, not geometry -/

/-- C9 (implicit region-assignment default): a station contributes to the
north-arm point list iff its id is in the fixed set `{RD2, SJ-1, LVG4}`;
every other station with a defined, non-NaN value and coordinates — any
unknown id included — lands in the south-arm list, regardless of its
geographic position.  The two lists are exactly the valid stations,
filtered by set membership, in station order. -/
theorem north_arm_assignment (project : JVal → JVal → JVal × JVal)
    (data : String → Option JVal) (stations : List Station) :
    buildArmPoints project data stations =
      ((stations.filter (fun s =>
          isValidStation data s && NORTH_ARM_STATION_IDS.contains s.id)).map
          (mkDataPoint project data),
       (stations.filter (fun s =>
          isValidStation data s && !(NORTH_ARM_STATION_IDS.contains s.id))).map
          (mkDataPoint project data)) := by
  induction stations with
  | nil => rfl
  | cons s rest ih =>
    rcases hid : data s.id with _ | v
    · have hv : isValidStation data s = false := by
        unfold isValidStation
        rw [hid]
      simp [buildArmPoints, hid, List.filter_cons, hv, ih]
    · rcases hlon : s.longitude with _ | lon
      · have hv : isValidStation data s = false := by
          unfold isValidStation
          rw [hid, hlon]
        simp [buildArmPoints, hid, hlon, List.filter_cons, hv, ih]
      · rcases hlat : s.latitude with _ | lat
        · have hv : isValidStation data s = false := by
            unfold isValidStation
            rw [hid, hlon, hlat]
          simp [buildArmPoints, hid, hlon, hlat, List.filter_cons, hv, ih]
        · have hv : isValidStation data s = !(jIsNaN v || jIsNaN lon || jIsNaN lat) := by
            unfold isValidStation
            rw [hid, hlon, hlat]
          have hmk : mkDataPoint project data s =
              ⟨(project lon lat).1, (project lon lat).2, v⟩ := by
            unfold mkDataPoint
            rw [hid, hlon, hlat]
            rfl
          by_cases hnan : (jIsNaN v || jIsNaN lon || jIsNaN lat) = true
          · have hv2 : isValidStation data s = false := by rw [hv, hnan]; rfl
            simp [buildArmPoints, hid, hlon, hlat, hnan, List.filter_cons, hv2, ih]
          · rw [Bool.not_eq_true] at hnan
            have hv2 : isValidStation data s = true := by rw [hv, hnan]; rfl
            by_cases hc : NORTH_ARM_STATION_IDS.contains s.id = true
            · have hmem : s.id ∈ NORTH_ARM_STATION_IDS := by simpa using hc
              simp [buildArmPoints, hid, hlon, hlat, hnan, hc, hmem,
                List.filter_cons, hv2, hmk, ih]
            · rw [Bool.not_eq_true] at hc
              have hmem : s.id ∉ NORTH_ARM_STATION_IDS := by simpa using hc
              simp [buildArmPoints, hid, hlon, hlat, hnan, hc, hmem,
                List.filter_cons, hv2, hmk, ih]

/-! ## Claim C7: a station with no value is excluded and shown as "No data" -/

/-- C7: a station whose value is absent from the current
`StationDataValues` mapping contributes to neither interpolation point
list (it is never treated as value 0 — dropping all such stations leaves
both lists unchanged), and its marker renders with the neutral "no data"
fill and a `name: No data` tooltip instead of a color-scale color. -/
theorem missing_value_station_handling
    (project : JVal → JVal → JVal × JVal) (colorScale : JVal → String)
    (toFixedFn : JVal → ℕ → String) (data : String → Option JVal)
    (precision : ℕ) (unit : String) (stations : List Station) (s : Station)
    (lon lat : JVal) :
    (buildArmPoints project data stations =
      buildArmPoints project data (stations.filter (fun st => (data st.id).isSome)))
    ∧ (s.longitude = some lon → s.latitude = some lat → data s.id = none →
        markerFor project colorScale toFixedFn data precision unit s =
          some ⟨(project lon lat).1, (project lon lat).2, NO_DATA_FILL,
            s.name ++ ": No data", s.name⟩)
    ∧ (s ∈ stations → s.longitude = some lon → s.latitude = some lat →
        data s.id = none →
        (⟨(project lon lat).1, (project lon lat).2, NO_DATA_FILL,
          s.name ++ ": No data", s.name⟩ : Marker) ∈
          mkMarkers project colorScale toFixedFn data precision unit stations) := by
  have hpart1 : ∀ sts : List Station,
      buildArmPoints project data sts =
        buildArmPoints project data (sts.filter (fun st => (data st.id).isSome)) := by
    intro sts
    induction sts with
    | nil => rfl
    | cons t rest ih =>
      rcases hid : data t.id with _ | v
      · simp only [List.filter_cons, hid, Option.isSome_none, Bool.false_eq_true, if_false]
        simp only [buildArmPoints, hid]
        exact ih
      · simp only [List.filter_cons, hid, Option.isSome_some, if_true]
        simp only [buildArmPoints, hid]
        rw [ih]
  have hmarker : s.longitude = some lon → s.latitude = some lat → data s.id = none →
      markerFor project colorScale toFixedFn data precision unit s =
        some ⟨(project lon lat).1, (project lon lat).2, NO_DATA_FILL,
          s.name ++ ": No data", s.name⟩ := by
    intro h1 h2 h3
    unfold markerFor
    rw [h1, h2, h3]
  refine ⟨hpart1 stations, hmarker, ?_⟩
  intro hmem h1 h2 h3
  unfold mkMarkers
  exact List.mem_filterMap.mpr ⟨s, hmem, hmarker h1 h2 h3⟩

/-- Witness for C7: for the single station `X` with no value in the data
mapping, the marker carries the neutral fill and a `Xname: No data`
tooltip, and it appears among the rendered markers. -/
theorem missing_value_station_handling_witness :
    markerFor (fun a b => (a, b)) (fun _ => "c") (fun _ _ => "t") (fun _ => none) 1 "u"
        ⟨"X", "Xname", some (.fin 1), some (.fin 2)⟩ =
      some ⟨.fin 1, .fin 2, NO_DATA_FILL, "Xname" ++ ": No data", "Xname"⟩ ∧
    (⟨.fin 1, .fin 2, NO_DATA_FILL, "Xname" ++ ": No data", "Xname"⟩ : Marker) ∈
      mkMarkers (fun a b => (a, b)) (fun _ => "c") (fun _ _ => "t") (fun _ => none) 1 "u"
        [⟨"X", "Xname", some (.fin 1), some (.fin 2)⟩] :=
  ⟨(missing_value_station_handling (fun a b => (a, b)) (fun _ => "c") (fun _ _ => "t")
      (fun _ => none) 1 "u" [⟨"X", "Xname", some (.fin 1), some (.fin 2)⟩]
      ⟨"X", "Xname", some (.fin 1), some (.fin 2)⟩ (.fin 1) (.fin 2)).2.1 rfl rfl rfl,
   (missing_value_station_handling (fun a b => (a, b)) (fun _ => "c") (fun _ _ => "t")
      (fun _ => none) 1 "u" [⟨"X", "Xname", some (.fin 1), some (.fin 2)⟩]
      ⟨"X", "Xname", some (.fin 1), some (.fin 2)⟩ (.fin 1) (.fin 2)).2.2
      (by simp) rfl rfl rfl⟩

/-! ## Claim C6: a failed region match skips the raster, never the render -/

/-- C6: when no feature's slug matches the arm's derived clip slug, or the
matched feature's geographic bounds are not finite, `processArm` skips
that region's rasterization and returns (it is a total function, so it
cannot throw or abort the render); the outline-drawing step of
`renderOverlay` still emits one outline path per feature, whatever the two
`processArm` calls produced. -/
theorem processArm_skip_and_outlines :
    (∀ (features : List Feature) (project : JVal → JVal → JVal × JVal)
        (stationsLength : ℕ) (armPoints : List DataPoint) (clipId : String)
        (canvasResolutionWidth canvasResolutionHeight : ℕ),
        (∀ f ∈ features,
          (slugify (rawLayerOf f "") == clipIdToSlug (some clipId)) = false) →
        processArm features project stationsLength armPoints (some clipId)
          canvasResolutionWidth canvasResolutionHeight = none)
    ∧ (∀ (features : List Feature) (project : JVal → JVal → JVal × JVal)
        (stationsLength : ℕ) (armPoints : List DataPoint) (clipId : String)
        (canvasResolutionWidth canvasResolutionHeight : ℕ) (f : Feature),
        features.find? (fun g => slugify (rawLayerOf g "") == clipIdToSlug (some clipId))
          = some f →
        (jIsFinite f.bounds.1.1 && jIsFinite f.bounds.1.2 && jIsFinite f.bounds.2.1 &&
          jIsFinite f.bounds.2.2) = false →
        processArm features project stationsLength armPoints (some clipId)
          canvasResolutionWidth canvasResolutionHeight = none)
    ∧ (∀ (features : List Feature) (project : JVal → JVal → JVal × JVal)
        (colorScale : JVal → String) (toFixedFn : JVal → ℕ → String)
        (data : String → Option JVal) (stations : List Station)
        (precision : ℕ) (unit : String),
        (renderOverlay features project colorScale toFixedFn data stations
          precision unit).outlines = features) := by
  refine ⟨?_, ?_, fun _ _ _ _ _ _ _ _ => rfl⟩
  · intro features project stationsLength armPoints clipId cw ch hnone
    have hfind : features.find?
        (fun f => slugify (rawLayerOf f "") == clipIdToSlug (some clipId)) = none :=
      List.find?_eq_none.mpr (fun f hf => by simp [hnone f hf])
    simp only [processArm]
    split
    · rfl
    · rw [hfind]
  · intro features project stationsLength armPoints clipId cw ch f hfind hb
    simp only [processArm]
    split
    · rfl
    · rw [hfind]
      have hcond : (!(jIsFinite f.bounds.1.1) || !(jIsFinite f.bounds.1.2) ||
          !(jIsFinite f.bounds.2.1) || !(jIsFinite f.bounds.2.2)) = true := by
        revert hb
        cases jIsFinite f.bounds.1.1 <;> cases jIsFinite f.bounds.1.2 <;>
          cases jIsFinite f.bounds.2.1 <;> cases jIsFinite f.bounds.2.2 <;> simp
      dsimp only
      rw [hcond]
      rfl

/-- Witness for C6: a single feature whose slug `foo` does not match the
requested clip slug `bar`; the arm raster is skipped while the outline
list still contains the feature. -/
theorem processArm_skip_and_outlines_witness :
    processArm [⟨some "Foo", ((.fin 0, .fin 0), (.fin 1, .fin 1))⟩]
        (fun a b => (a, b)) 0 [] (some "maplibreo-lake-clip-bar") 10 10 = none ∧
      (renderOverlay [⟨some "Foo", ((.fin 0, .fin 0), (.fin 1, .fin 1))⟩]
        (fun a b => (a, b)) (fun _ => "c") (fun _ _ => "t") (fun _ => none) [] 1
        "u").outlines = [⟨some "Foo", ((.fin 0, .fin 0), (.fin 1, .fin 1))⟩] :=
  ⟨processArm_skip_and_outlines.1 [⟨some "Foo", ((.fin 0, .fin 0), (.fin 1, .fin 1))⟩]
      (fun a b => (a, b)) 0 [] "maplibreo-lake-clip-bar" 10 10
      (by intro f hf; simp at hf; subst hf; decide),
    processArm_skip_and_outlines.2.2 [⟨some "Foo", ((.fin 0, .fin 0), (.fin 1, .fin 1))⟩]
      (fun a b => (a, b)) (fun _ => "c") (fun _ _ => "t") (fun _ => none) [] 1 "u"⟩

/-! ## Claim C5: stop-at-end playback policy -/

/-- C5 counterexample: in the current main component
(`great-salt-lake-heatmap.tsx`), one timer tick with the index at the last
position (index 2 of 3 time points, playback active) yields index 0 with
playback still active — it loops, and does not halt with the index
unchanged as the claim states. -/
theorem mainTick_loops_counterexample :
    mainTick 3 ⟨2, true⟩ = ⟨0, true⟩ ∧
      ¬((mainTick 3 ⟨2, true⟩).playing = false ∧
        (mainTick 3 ⟨2, true⟩).currentTimeIndex = 2) := by
  constructor
  · decide
  · decide

/-- C5 amended: the stop-at-end policy holds for the animation timer of
the unnamed earlier component variants (`part_005`, `part_006`): one tick
at the last index halts playback and leaves the index at the last
position; in the current main component the same tick instead loops back
to index 0 and leaves playback active. -/
theorem stop_at_end_policy (timePointsLength idx : ℕ)
    (hlen : 0 < timePointsLength) (hidx : idx = timePointsLength - 1) :
    variantTick timePointsLength ⟨idx, true⟩ = ⟨timePointsLength - 1, false⟩ ∧
      mainTick timePointsLength ⟨idx, true⟩ = ⟨0, true⟩ := by
  subst hidx
  have h1 : timePointsLength - 1 + 1 ≥ timePointsLength := by omega
  constructor
  · simp [variantTick, hlen, h1]
  · simp [mainTick, hlen, h1]

/-- Witness for the amended C5: with 3 time points and the index at 2, the
variant tick stops playback at index 2 while the main tick loops to 0. -/
theorem stop_at_end_policy_witness :
    variantTick 3 ⟨2, true⟩ = ⟨2, false⟩ ∧ mainTick 3 ⟨2, true⟩ = ⟨0, true⟩ :=
  stop_at_end_policy 3 2 (by decide) (by decide)
